import Mathlib

/-!
Verification of the stoopid-short URL shortener core.

Shallow embedding of `src/url_repo.rs` and `src/url_service.rs`.
Conventions of the embedding:
* `time::OffsetDateTime` is modelled as an `Int` of whole unix seconds (UTC);
  the persisted column `expiration_time_seconds` stores exactly such seconds.
* The external `url` crate's `Url` is modelled as a validated wrapper around
  the serialized string: `Url.parse` validates and applies the crate's
  pathless-URL normalization (an absolute URL with no path serializes with
  the root path "/" appended).
* The external `time` crate's RFC 3339 parsing/formatting is modelled for
  whole-second timestamps.
* The external `blake3` keyed hash is an arbitrary deterministic function
  supplied in a `PostEnv`; the random salts drawn on retries are likewise an
  input stream in `PostEnv`.
* The database is a list of rows; `find_by_id` is first-match lookup,
  `insert` appends, `delete_by_id` removes rows with the id.
* Effects: fallible operations return `Except`; stateful operations return
  the new state alongside the result; `anyhow::Error` is a `String`.
-/

/-- Decidable equality for `Except`, needed to evaluate results concretely. -/
def exceptDecEq {ε α : Type} [DecidableEq ε] [DecidableEq α] :
    (x y : Except ε α) → Decidable (x = y)
  | .ok a, .ok b =>
    if h : a = b then .isTrue (congrArg Except.ok h)
    else .isFalse fun hh => h (Except.ok.inj hh)
  | .ok _, .error _ => .isFalse fun hh => Except.noConfusion hh
  | .error _, .ok _ => .isFalse fun hh => Except.noConfusion hh
  | .error e, .error f =>
    if h : e = f then .isTrue (congrArg Except.error h)
    else .isFalse fun hh => h (Except.error.inj hh)

instance {ε α : Type} [DecidableEq ε] [DecidableEq α] : DecidableEq (Except ε α) :=
  exceptDecEq

/-- Numeric value of an ASCII digit character. -/
def digitVal (c : Char) : Option Nat :=
  if c.isDigit then some (c.toNat - 48) else none

/-- Parse a nonempty list of ASCII digit characters as a natural number. -/
def parseDigits (cs : List Char) : Option Nat :=
  if cs.isEmpty then none
  else cs.foldl (fun acc c => acc.bind fun n => (digitVal c).map fun d => 10 * n + d) (some 0)

/-- Gregorian leap-year test. -/
def isLeapYear (y : Int) : Bool :=
  (y % 4 == 0 && y % 100 != 0) || y % 400 == 0

/-- Number of days in the given month of the given year. -/
def daysInMonth (y m : Int) : Int :=
  if m == 2 then (if isLeapYear y then 29 else 28)
  else if m == 4 || m == 6 || m == 9 || m == 11 then 30
  else 31

/-- Days since the unix epoch of a civil date (Gregorian calendar). -/
def daysFromCivil (y m d : Int) : Int :=
  let yAdj := if m ≤ 2 then y - 1 else y
  let era := yAdj / 400
  let yoe := yAdj - era * 400
  let mp := (m + 9) % 12
  let doy := (153 * mp + 2) / 5 + d - 1
  let doe := yoe * 365 + yoe / 4 - yoe / 100 + doy
  era * 146097 + doe - 719468

/-- Civil date (year, month, day) of a count of days since the unix epoch. -/
def civilFromDays (z0 : Int) : Int × Int × Int :=
  let z := z0 + 719468
  let era := z / 146097
  let doe := z - era * 146097
  let yoe := (doe - doe / 1460 + doe / 36524 - doe / 146096) / 365
  let y := yoe + era * 400
  let doy := doe - (365 * yoe + yoe / 4 - yoe / 100)
  let mp := (5 * doy + 2) / 153
  let d := doy - (153 * mp + 2) / 5 + 1
  let m := if mp < 10 then mp + 3 else mp - 9
  (if m ≤ 2 then y + 1 else y, m, d)

/-- Left-pad a natural number to two decimal digits. -/
def pad2 (n : Nat) : String :=
  if n < 10 then "0" ++ toString n else toString n

/-- Left-pad a natural number to four decimal digits. -/
def pad4 (n : Nat) : String :=
  if n < 10 then "000" ++ toString n
  else if n < 100 then "00" ++ toString n
  else if n < 1000 then "0" ++ toString n
  else toString n

/-- Model of the external time crate: parse of the trailing UTC-offset part of
an RFC 3339 timestamp, in seconds east of UTC. -/
def parseRfc3339Offset : List Char → Option Int
  | ['Z'] => some 0
  | ['z'] => some 0
  | [sign, h1, h2, ':', m1, m2] =>
    match parseDigits [h1, h2], parseDigits [m1, m2] with
    | some oh, some om =>
      if oh < 24 && om < 60 then
        let total : Int := (oh * 3600 + om * 60 : Nat)
        match sign with
        | '+' => some total
        | '-' => some (-total)
        | _ => none
      else none
    | _, _ => none
  | _ => none

/-- Model of the external time crate: `OffsetDateTime::parse(s, &Rfc3339)`
followed by `.to_offset(UTC)`, restricted to whole-second timestamps, as unix
seconds. -/
def parseRfc3339 (s : String) : Except String Int :=
  match s.data with
  | y1 :: y2 :: y3 :: y4 :: '-' :: m1 :: m2 :: '-' :: d1 :: d2 ::
      tc :: h1 :: h2 :: ':' :: mi1 :: mi2 :: ':' :: s1 :: s2 :: rest =>
    if tc == 'T' || tc == 't' then
      match parseDigits [y1, y2, y3, y4], parseDigits [m1, m2], parseDigits [d1, d2],
          parseDigits [h1, h2], parseDigits [mi1, mi2], parseDigits [s1, s2],
          parseRfc3339Offset rest with
      | some y, some mo, some d, some h, some mi, some sec, some off =>
        if 1 ≤ mo && mo ≤ 12 && 1 ≤ d && (d : Int) ≤ daysInMonth y mo
            && h < 24 && mi < 60 && sec < 60 then
          .ok (daysFromCivil y mo d * 86400 + (h * 3600 + mi * 60 + sec : Nat) - off)
        else .error "failed to parse timestamp: component out of range"
      | _, _, _, _, _, _, _ => .error "failed to parse timestamp: invalid component"
    else .error "failed to parse timestamp: invalid separator"
  | _ => .error "failed to parse timestamp: unexpected format"

/-- Model of the external time crate: `format(&Rfc3339)` of a whole-second UTC
timestamp; fails outside the four-digit-year range. -/
def formatRfc3339 (t : Int) : Option String :=
  let days := t / 86400
  let secs := t % 86400
  let ymd := civilFromDays days
  if 0 ≤ ymd.1 && ymd.1 ≤ 9999 then
    some (pad4 ymd.1.toNat ++ "-" ++ pad2 ymd.2.1.toNat ++ "-" ++ pad2 ymd.2.2.toNat
      ++ "T" ++ pad2 (secs / 3600).toNat ++ ":" ++ pad2 (secs % 3600 / 60).toNat
      ++ ":" ++ pad2 (secs % 60).toNat ++ "Z")
  else none

/-- Embeds `url_repo::ShortId`: a validated short-identifier string. -/
structure ShortId where
  inner : String
deriving DecidableEq

/-- Embeds `url_repo::ShortIdValidationError`. -/
inductive ShortIdValidationError where
  | InvalidLength (min_len max_len : Nat)
  | InvalidCharacters (invalid_chars : String)
deriving DecidableEq

/-- Embeds `ShortId::new`: length must lie in the byte-length range 6..=16 and
every character must be ASCII alphanumeric. -/
def ShortId.new (short_id : String) : Except ShortIdValidationError ShortId :=
  let min_len := 6
  let max_len := 16
  if ¬(min_len ≤ short_id.utf8ByteSize ∧ short_id.utf8ByteSize ≤ max_len) then
    .error (.InvalidLength min_len max_len)
  else
    let invalid_chars := String.mk (short_id.data.filter fun c => !c.isAlphanum)
    if invalid_chars ≠ "" then
      .error (.InvalidCharacters invalid_chars)
    else
      .ok ⟨short_id⟩

/-- Embeds `ShortId::into_inner`. -/
def ShortId.into_inner (s : ShortId) : String := s.inner

/-- Embeds `ExpirationTime::new`'s `MAX_TTL` of `Duration::days(10 * 365)`,
in seconds. -/
def MAX_TTL : Int := 10 * 365 * 86400

/-- Embeds `url_repo::ExpirationTime`: a validated absolute timestamp. -/
structure ExpirationTime where
  inner : Int
deriving DecidableEq

/-- Embeds `url_repo::ExpirationTimeValidationError`. -/
inductive ExpirationTimeValidationError where
  | TooFarInFuture (max_time : Int)
  | InPast
deriving DecidableEq

/-- Embeds `ExpirationTime::new`, with the wall clock reading passed
explicitly as `now`. -/
def ExpirationTime.new (now proposed_time : Int) :
    Except ExpirationTimeValidationError ExpirationTime :=
  if proposed_time < now then
    .error .InPast
  else
    let max_time := now + MAX_TTL
    if proposed_time > max_time then
      .error (.TooFarInFuture max_time)
    else
      .ok ⟨proposed_time⟩

/-- Embeds `ExpirationTime::into_inner`. -/
def ExpirationTime.into_inner (e : ExpirationTime) : Int := e.inner

/-- Model of the external url crate's parsed `Url`, kept as its serialized
(normalized) string form. -/
structure Url where
  inner : String
deriving DecidableEq

/-- Split a character list at the first occurrence of the "://" separator,
returning the parts before and after it. -/
def splitScheme : List Char → Option (List Char × List Char)
  | [] => none
  | c :: rest =>
    if c = ':' ∧ rest.take 2 = ['/', '/'] then some ([], rest.drop 2)
    else
      match splitScheme rest with
      | some (scheme, tail) => some (c :: scheme, tail)
      | none => none

/-- Path normalization of the model of `Url::parse`: a URL whose part after
"://" contains no '/' has no path, and the url crate serializes such a URL
with the root path appended — `Url::parse("https://example.com")` serializes
as "https://example.com/". -/
def normalizeRest (rest : List Char) : List Char :=
  if rest.contains '/' then rest else rest ++ ['/']

/-- Model of the external url crate's `Url::parse` composed with its
serialization (`as_str`): an absolute URL with a nonempty alphabetic scheme
and a nonempty, space-free remainder is accepted, and a URL with no path gets
the root path "/" appended, as the crate does for its special schemes. The
crate's other normalizations (lowercasing, default-port removal,
percent-encoding) are outside the model. -/
def Url.parse (s : String) : Except String Url :=
  match splitScheme s.data with
  | some (scheme, rest) =>
    if !scheme.isEmpty && scheme.all Char.isAlpha && !rest.isEmpty
        && rest.all (fun c => c != ' ') then
      .ok ⟨String.mk (scheme ++ ':' :: '/' :: '/' :: normalizeRest rest)⟩
    else .error "relative URL without a base"
  | none => .error "relative URL without a base"

/-- Model of `Url::as_str`. -/
def Url.as_str (u : Url) : String := u.inner

/-- Embeds `url_repo::ShortUrl`, the in-memory aggregate. -/
structure ShortUrl where
  short_id : ShortId
  url : Url
  expiration_time : ExpirationTime
deriving DecidableEq

/-- Embeds `orm::short_url::Model`, one persisted row of the `urls` table;
`expiration_time_seconds` is a unix timestamp in seconds. -/
structure Model where
  id : String
  long_url : String
  expiration_time_seconds : Int
deriving DecidableEq

/-- Embeds `TryFrom<short_url::Model> for ShortUrl`: reconstruction of a row
into a domain value, re-running every validation. -/
def Model.tryIntoShortUrl (now : Int) (m : Model) : Except String ShortUrl :=
  match ShortId.new m.id with
  | .error _ => .error "Failed to create ShortId from db model"
  | .ok short_id =>
    match Url.parse m.long_url with
    | .error _ => .error "Failed to parse Url from db model"
    | .ok url =>
      match ExpirationTime.new now m.expiration_time_seconds with
      | .error _ => .error "Failed to create ExpirationTime from db model"
      | .ok expiration_time => .ok ⟨short_id, url, expiration_time⟩

/-- Embeds `short_url::Entity::find_by_id` over the list-of-rows state. -/
def findById (st : List Model) (id : String) : Option Model :=
  st.find? fun m => m.id == id

/-- Embeds `url_repo::SaveUrlError`. -/
inductive SaveUrlError where
  | ItemAlreadyExists (existing : ShortUrl)
  | Internal (cause : String)
deriving DecidableEq

/-- Embeds `UrlRepositoryImpl::save_url`: inside one transaction, look the id
up; reject with `ItemAlreadyExists` when an unexpired row holds it; delete an
expired row first; then insert the candidate and return it reconstructed. -/
def saveUrl (now : Int) (st : List Model) (short_url : ShortUrl) :
    Except SaveUrlError ShortUrl × List Model :=
  let short_id := short_url.short_id.into_inner
  let long_url := short_url.url.as_str
  let expiration_time := short_url.expiration_time.into_inner
  match findById st short_id with
  | some existing =>
    if existing.expiration_time_seconds ≥ now then
      match existing.tryIntoShortUrl now with
      | .ok ex => (.error (.ItemAlreadyExists ex), st)
      | .error e => (.error (.Internal e), st)
    else
      let afterDelete := st.filter fun m => !(m.id == existing.id)
      let inserted : Model := ⟨short_id, long_url, expiration_time⟩
      let st2 := afterDelete ++ [inserted]
      match inserted.tryIntoShortUrl now with
      | .ok v => (.ok v, st2)
      | .error e => (.error (.Internal e), st2)
  | none =>
    let inserted : Model := ⟨short_id, long_url, expiration_time⟩
    let st2 := st ++ [inserted]
    match inserted.tryIntoShortUrl now with
    | .ok v => (.ok v, st2)
    | .error e => (.error (.Internal e), st2)

/-- Embeds `UrlRepositoryImpl::retrieve_url` applied to the outcome of the
point query (an `Except` so that transport faults are representable): keep the
row only when its expiration is at or after `now`, then reconstruct it. -/
def retrieveUrlFrom (now : Int) (queryResult : Except String (Option Model)) :
    Except String (Option ShortUrl) :=
  match queryResult with
  | .error _ => .error "Failed to query for existing item"
  | .ok opt_url =>
    match opt_url.filter (fun model => decide (model.expiration_time_seconds ≥ now)) with
    | none => .ok none
    | some model =>
      match model.tryIntoShortUrl now with
      | .ok u => .ok (some u)
      | .error e => .error e

/-- Embeds `retrieve_url` on a healthy store holding state `st`. -/
def retrieveUrl (now : Int) (st : List Model) (id : String) :
    Except String (Option ShortUrl) :=
  retrieveUrlFrom now (.ok (findById st id))

/-- Embeds `url_service::GetUrlError`. -/
inductive GetUrlError where
  | NotFound
  | Db (cause : String)
deriving DecidableEq

/-- Embeds `url_service::UrlCreationStatus`. -/
inductive UrlCreationStatus where
  | NewlyCreated
  | AlreadyExists
deriving DecidableEq

/-- Embeds `url_service::PutUrlError`. -/
inductive PutUrlError where
  | TimestampParse (cause : String)
  | InvalidExpirationTime (cause : ExpirationTimeValidationError)
  | InvalidShortId (cause : ShortIdValidationError)
  | InvalidUrl (cause : String)
  | ShortIdAlreadyTaken
  | Internal (cause : String)
deriving DecidableEq

/-- Embeds `url_service::PostUrlError`. -/
inductive PostUrlError where
  | TimestampParse (cause : String)
  | InvalidExpirationTime (cause : ExpirationTimeValidationError)
  | InvalidUrl (cause : String)
  | Internal (cause : String)
deriving DecidableEq

/-- Embeds `url_service::ShortenedUrl`, the external output shape. -/
structure ShortenedUrl where
  shortened_url_id : String
  long_url : String
  expiration_timestamp : String
deriving DecidableEq

/-- Embeds `url_service::Redirect`; `max_age_seconds` is the Rust `u64`. -/
structure Redirect where
  url : String
  max_age_seconds : Nat
deriving DecidableEq

/-- Embeds `TryFrom<url_repo::ShortUrl> for ShortenedUrl`. -/
def ShortUrl.tryIntoShortenedUrl (su : ShortUrl) : Except String ShortenedUrl :=
  match formatRfc3339 su.expiration_time.into_inner with
  | some ts => .ok ⟨su.short_id.into_inner, su.url.inner, ts⟩
  | none => .error "Failed to format expiration timestamp"

/-- Embeds `UrlRestServiceImpl::get_url` applied to the repository outcome;
`now` is the wall clock read when computing the remaining lifetime (the Rust
`u64::try_from(..).unwrap_or(0)` is `Int.toNat`, clamping negatives to 0). -/
def getUrl (now : Int) (retrieved : Except String (Option ShortUrl)) :
    Except GetUrlError Redirect :=
  match retrieved with
  | .ok (some url) =>
    .ok ⟨url.url.as_str, (url.expiration_time.into_inner - now).toNat⟩
  | .ok none => .error .NotFound
  | .error err => .error (.Db err)

/-- Embeds `get_url` against a healthy store with state `st`; `nowRetrieve` is
the clock reading inside `retrieve_url` and `nowRemaining` the later reading
used for the remaining lifetime. -/
def getUrlOn (st : List Model) (nowRetrieve nowRemaining : Int) (id : String) :
    Except GetUrlError Redirect :=
  getUrl nowRemaining (retrieveUrl nowRetrieve st id)

/-- Embeds `UrlRestServiceImpl::put_url`: parse the timestamp, validate the
three inputs in source order, save, and classify the save outcome. -/
def putUrl (now : Int) (st : List Model) (id : String) (long_url : String)
    (expiration_timestamp : String) :
    Except PutUrlError (ShortenedUrl × UrlCreationStatus) × List Model :=
  match parseRfc3339 expiration_timestamp with
  | .error e => (.error (.TimestampParse e), st)
  | .ok expiration_time =>
    match ShortId.new id with
    | .error e => (.error (.InvalidShortId e), st)
    | .ok short_id =>
      match Url.parse long_url with
      | .error e => (.error (.InvalidUrl e), st)
      | .ok url =>
        match ExpirationTime.new now expiration_time with
        | .error e => (.error (.InvalidExpirationTime e), st)
        | .ok exp_time =>
          let to_save : ShortUrl := ⟨short_id, url, exp_time⟩
          match saveUrl now st to_save with
          | (.ok short_url, st2) =>
            match short_url.tryIntoShortenedUrl with
            | .ok out => (.ok (out, .NewlyCreated), st2)
            | .error e =>
              (.error (.Internal ("Failed to convert new ShortUrl into external format: " ++ e)), st2)
          | (.error (.ItemAlreadyExists existing_short_url), st2) =>
            if to_save = existing_short_url then
              match existing_short_url.tryIntoShortenedUrl with
              | .ok out => (.ok (out, .AlreadyExists), st2)
              | .error e =>
                (.error (.Internal ("Failed to convert existing ShortUrl into external format: " ++ e)), st2)
            else
              (.error .ShortIdAlreadyTaken, st2)
          | (.error (.Internal internal_err), st2) =>
            (.error (.Internal internal_err), st2)

/-- Alphabet of the external base62 crate's standard encoding. -/
def base62Alphabet : List Char :=
  "0123456789ABCDEFGHIJKLMNOPQRSTUVWXYZabcdefghijklmnopqrstuvwxyz".data

/-- Character of one base62 digit. -/
def base62Digit (n : Nat) : Char := base62Alphabet.getD n '0'

/-- Digit loop of base62 encoding; the fuel (running from 128) strictly exceeds
the digit count of any `u128`, so the loop always runs to completion. -/
def base62EncodeGo : Nat → Nat → List Char → List Char
  | 0, _, acc => acc
  | _ + 1, 0, acc => acc
  | fuel + 1, n, acc => base62EncodeGo fuel (n / 62) (base62Digit (n % 62) :: acc)

/-- Model of the external base62 crate's `encode` on a `u128`. -/
def base62Encode (n : Nat) : String :=
  if n = 0 then "0" else String.mk (base62EncodeGo 128 n [])

/-- Value of a little-endian byte buffer, as in `u128::from_le_bytes`. -/
def leBytesToNat (bs : List UInt8) : Nat :=
  bs.foldr (fun b acc => b.toNat + 256 * acc) 0

/-- Embeds `post_url`'s `BYTES_TO_TAKE`. -/
def BYTES_TO_TAKE : Nat := 5

/-- Embeds the candidate-id derivation inside `post_url`: a keyed hash of the
salt over the URL bytes followed by the expiration-timestamp bytes, whose
first `BYTES_TO_TAKE` digest bytes fill the front of an otherwise zeroed
16-byte buffer read as a little-endian `u128` and base62-encoded. -/
def deriveAttemptId (hash : List UInt8 → List UInt8 → List UInt8)
    (salt : List UInt8) (url expiration_timestamp : String) : String :=
  let digest := hash salt (url.toUTF8.toList ++ expiration_timestamp.toUTF8.toList)
  let first_bytes := digest.take BYTES_TO_TAKE
  let base62_buf := first_bytes ++ List.replicate (16 - first_bytes.length) (0 : UInt8)
  base62Encode (leBytesToNat base62_buf)

/-- Environment of external effects used by `post_url`: the blake3 keyed hash
(arguments: 32-byte key a.k.a. salt, then the message) and the stream of
random salts drawn on retries (`randomSalt k` is the salt drawn at the end of
attempt `k`, counting attempts from 0). -/
structure PostEnv where
  hash : List UInt8 → List UInt8 → List UInt8
  randomSalt : Nat → List UInt8

/-- Embeds the initial `[0; blake3::KEY_LEN]` salt of `post_url`. -/
def zeroSalt : List UInt8 := List.replicate 32 0

/-- Embeds `post_url`'s `PUT_ATTEMPTS`. -/
def PUT_ATTEMPTS : Nat := 3

/-- Embeds the attempt loop of `UrlRestServiceImpl::post_url`; arguments after
the inputs are the remaining attempts, the attempts already made, the current
salt and the store state; returns the result, the final state and the total
number of put attempts made. -/
def postLoop (env : PostEnv) (now : Int) (url expiration_timestamp : String) :
    Nat → Nat → List UInt8 → List Model →
      Except PostUrlError ShortenedUrl × List Model × Nat
  | 0, attempts, _, st => (.error (.Internal "Exhausted retry attempts"), st, attempts)
  | fuel + 1, attempts, salt, st =>
    let attempt_id := deriveAttemptId env.hash salt url expiration_timestamp
    match putUrl now st attempt_id url expiration_timestamp with
    | (.ok (shortened_url, _), st2) => (.ok shortened_url, st2, attempts + 1)
    | (.error (.InvalidUrl inner), st2) => (.error (.InvalidUrl inner), st2, attempts + 1)
    | (.error (.TimestampParse inner), st2) => (.error (.TimestampParse inner), st2, attempts + 1)
    | (.error (.InvalidExpirationTime inner), st2) =>
      (.error (.InvalidExpirationTime inner), st2, attempts + 1)
    | (.error (.Internal err), st2) =>
      (.error (.Internal ("Encountered internal error in delegated PUT call: " ++ err)),
        st2, attempts + 1)
    | (.error (.InvalidShortId _), st2) =>
      postLoop env now url expiration_timestamp fuel (attempts + 1) (env.randomSalt attempts) st2
    | (.error .ShortIdAlreadyTaken, st2) =>
      postLoop env now url expiration_timestamp fuel (attempts + 1) (env.randomSalt attempts) st2

/-- Embeds `UrlRestServiceImpl::post_url`. -/
def postUrl (env : PostEnv) (now : Int) (url expiration_timestamp : String)
    (st : List Model) : Except PostUrlError ShortenedUrl × List Model × Nat :=
  postLoop env now url expiration_timestamp PUT_ATTEMPTS 0 zeroSalt st

/-- Classification of put errors that post retries on, per the retry arms of
`post_url`: InvalidShortId and ShortIdAlreadyTaken. -/
def isRetryable : PutUrlError → Bool
  | .InvalidShortId _ => true
  | .ShortIdAlreadyTaken => true
  | _ => false

/-- Persisted row produced by inserting a `ShortUrl`, as built in `save_url`. -/
def ShortUrl.row (x : ShortUrl) : Model :=
  ⟨x.short_id.into_inner, x.url.as_str, x.expiration_time.into_inner⟩

/-- A `ShortUrl` all of whose components re-validate at time `now`, so that a
row persisted from it reconstructs to it. -/
def ValidAt (now : Int) (x : ShortUrl) : Prop :=
  ShortId.new x.short_id.inner = .ok x.short_id ∧
  Url.parse x.url.inner = .ok x.url ∧
  ExpirationTime.new now x.expiration_time.inner = .ok x.expiration_time

instance (now : Int) (x : ShortUrl) : Decidable (ValidAt now x) := by
  unfold ValidAt; infer_instance

example : parseRfc3339 "2025-10-13T00:00:00Z" = .ok 1760313600 := by decide
example : formatRfc3339 1760313600 = some "2025-10-13T00:00:00Z" := by decide
example : parseRfc3339 "1970-01-02T00:00:00Z" = .ok 86400 := by decide
example : parseRfc3339 "invalid-timestamp" = .error "failed to parse timestamp: unexpected format" := by decide
example : parseRfc3339 "2025-10-13T02:00:00+02:00" = .ok 1760313600 := by decide

example : ShortId.new "valid123" = .ok ⟨"valid123"⟩ := by decide
example : ShortId.new "short" = .error (.InvalidLength 6 16) := by decide
example : ShortId.new "thisidiswaytoolongtobevalid" = .error (.InvalidLength 6 16) := by decide
example : ShortId.new "invalid-id!" = .error (.InvalidCharacters "-!") := by decide
example : ExpirationTime.new 100 99 = .error .InPast := by decide
example : ExpirationTime.new 100 (100 + MAX_TTL + 1) = .error (.TooFarInFuture (100 + MAX_TTL)) := by decide
example : ExpirationTime.new 100 100 = .ok ⟨100⟩ := by decide
example : Url.parse "https://example.com" = .ok ⟨"https://example.com/"⟩ := by decide
example : Url.parse "https://example.com/x" = .ok ⟨"https://example.com/x"⟩ := by decide
example : (Url.parse "not a url").isOk = false := by decide
example : retrieveUrl 100 [⟨"abc123", "https://a.bc/", 99⟩] "abc123" = .ok none := by decide
example : retrieveUrl 100 [⟨"abc123", "https://a.bc/", 100⟩] "abc123"
    = .ok (some ⟨⟨"abc123"⟩, ⟨"https://a.bc/"⟩, ⟨100⟩⟩) := by decide

example : base62Encode 0 = "0" := by decide
example : base62Encode 61 = "z" := by decide
example : base62Encode 62 = "10" := by decide
example : leBytesToNat [1, 2, 3, 4, 5] = 21542142465 := by decide
example : putUrl 1760227200 [] "abc123xy" "https://example.com" "2025-10-13T00:00:00Z"
    = (.ok (⟨"abc123xy", "https://example.com/", "2025-10-13T00:00:00Z"⟩, .NewlyCreated),
       [⟨"abc123xy", "https://example.com/", 1760313600⟩]) := by decide
theorem shortId_new_eq_ok {s : String} {sid : ShortId}
    (h : ShortId.new s = .ok sid) : sid = ⟨s⟩ := by
  simp only [ShortId.new] at h
  split at h
  · exact absurd h (by simp)
  · split at h
    · exact absurd h (by simp)
    · exact (Except.ok.inj h).symm

theorem normalizeRest_idem (rest : List Char) :
    normalizeRest (normalizeRest rest) = normalizeRest rest := by
  unfold normalizeRest
  by_cases hc : rest.contains '/' = true
  · rw [if_pos hc, if_pos hc]
  · rw [if_neg hc]
    have hc2 : (rest ++ ['/']).contains '/' = true := by simp
    rw [if_pos hc2]

theorem splitScheme_reconstruct (scheme rest : List Char)
    (h : ∀ c ∈ scheme, c ≠ ':') :
    splitScheme (scheme ++ ':' :: '/' :: '/' :: rest) = some (scheme, rest) := by
  induction scheme with
  | nil => simp [splitScheme]
  | cons c tl ih =>
    have hc : ¬(c = ':' ∧ (tl ++ ':' :: '/' :: '/' :: rest).take 2 = ['/', '/']) :=
      fun hh => h c (List.mem_cons_self c tl) hh.1
    rw [List.cons_append]
    simp only [splitScheme, hc, if_false, ih fun d hd => h d (List.mem_cons_of_mem c hd)]

/-- Parsing the serialized form of an already-parsed URL returns it unchanged:
the model of `Url::parse` is idempotent on its image. -/
theorem url_parse_idem {s : String} {u : Url}
    (h : Url.parse s = .ok u) : Url.parse u.inner = .ok u := by
  unfold Url.parse at h
  rcases hsp : splitScheme s.data with - | ⟨scheme, rest⟩
  · simp only [hsp] at h
    exact absurd h (by simp)
  · simp only [hsp] at h
    by_cases hguard : (!scheme.isEmpty && scheme.all Char.isAlpha && !rest.isEmpty
        && rest.all fun c => c != ' ') = true
    · rw [if_pos hguard] at h
      obtain rfl : (⟨String.mk (scheme ++ ':' :: '/' :: '/' :: normalizeRest rest)⟩ : Url) = u :=
        Except.ok.inj h
      simp only [Bool.and_eq_true] at hguard
      obtain ⟨⟨⟨h1, h2⟩, h3⟩, h4⟩ := hguard
      have hne : ∀ c ∈ scheme, c ≠ ':' := by
        intro c hcmem hceq
        have hca := List.all_eq_true.mp h2 c hcmem
        rw [hceq] at hca
        exact absurd hca (by decide)
      have hnorm : normalizeRest rest = rest ∨ normalizeRest rest = rest ++ ['/'] := by
        unfold normalizeRest
        by_cases hc : rest.contains '/' = true
        · rw [if_pos hc]
          exact .inl rfl
        · rw [if_neg hc]
          exact .inr rfl
      have hg2 : (!scheme.isEmpty && scheme.all Char.isAlpha
          && !(normalizeRest rest).isEmpty
          && (normalizeRest rest).all fun c => c != ' ') = true := by
        simp only [Bool.and_eq_true]
        rcases hnorm with hn | hn <;> rw [hn]
        · exact ⟨⟨⟨h1, h2⟩, h3⟩, h4⟩
        · refine ⟨⟨⟨h1, h2⟩, ?_⟩, ?_⟩
          · cases rest <;> rfl
          · rw [List.all_append, h4]
            rfl
      show Url.parse (String.mk (scheme ++ ':' :: '/' :: '/' :: normalizeRest rest)) = _
      unfold Url.parse
      simp only [show (String.mk (scheme ++ ':' :: '/' :: '/' :: normalizeRest rest)).data
            = scheme ++ ':' :: '/' :: '/' :: normalizeRest rest from rfl,
        splitScheme_reconstruct scheme (normalizeRest rest) hne]
      rw [if_pos hg2, normalizeRest_idem]
    · rw [if_neg hguard] at h
      exact absurd h (by simp)

theorem expirationTime_new_eq_ok {now t : Int} {e : ExpirationTime}
    (h : ExpirationTime.new now t = .ok e) :
    e = ⟨t⟩ ∧ now ≤ t ∧ t ≤ now + MAX_TTL := by
  simp only [ExpirationTime.new] at h
  split at h
  · exact absurd h (by simp)
  · split at h
    · exact absurd h (by simp)
    · refine ⟨(Except.ok.inj h).symm, by omega, by omega⟩

theorem validAt_of_new {now : Int} {id url : String} {T : Int} {sid : ShortId}
    {u : Url} {e : ExpirationTime} (hsid : ShortId.new id = .ok sid)
    (hurl : Url.parse url = .ok u) (hexp : ExpirationTime.new now T = .ok e) :
    ValidAt now ⟨sid, u, e⟩ := by
  obtain rfl := shortId_new_eq_ok hsid
  obtain ⟨rfl, -, -⟩ := expirationTime_new_eq_ok hexp
  exact ⟨hsid, url_parse_idem hurl, hexp⟩

theorem validAt_alive {now : Int} {x : ShortUrl} (h : ValidAt now x) :
    now ≤ x.expiration_time.inner :=
  (expirationTime_new_eq_ok h.2.2).2.1

/-- Reconstructing the row persisted from a valid `ShortUrl` yields it back. -/
theorem tryIntoShortUrl_row {now : Int} {x : ShortUrl} (h : ValidAt now x) :
    x.row.tryIntoShortUrl now = .ok x := by
  obtain ⟨hsid, hurl, hexp⟩ := h
  unfold Model.tryIntoShortUrl ShortUrl.row ShortId.into_inner Url.as_str
    ExpirationTime.into_inner
  simp only [hsid, hurl, hexp]

/-- Point lookup after appending a fresh row for an id absent from the rest. -/
theorem findById_append {st : List Model} {id : String} (m : Model)
    (habsent : findById st id = none) (hid : m.id = id) :
    findById (st ++ [m]) id = some m := by
  unfold findById at habsent ⊢
  induction st with
  | nil => simp [hid]
  | cons a tl ih =>
    simp only [List.find?] at habsent ⊢
    rcases hcond : (a.id == id) with - | -
    · simp only [hcond] at habsent ⊢
      exact ih habsent
    · simp [hcond] at habsent

theorem retrieveUrl_absent (now : Int) (st : List Model) (id : String)
    (h : findById st id = none) : retrieveUrl now st id = .ok none := by
  simp [retrieveUrl, retrieveUrlFrom, h, Option.filter]

theorem retrieveUrl_expired (now : Int) (st : List Model) (id : String)
    (m : Model) (h : findById st id = some m)
    (hexp : m.expiration_time_seconds < now) : retrieveUrl now st id = .ok none := by
  have hd : decide (m.expiration_time_seconds ≥ now) = false := by
    simp; omega
  simp [retrieveUrl, retrieveUrlFrom, h, Option.filter, hd]

theorem retrieveUrl_alive (now : Int) (st : List Model) (id : String)
    (m : Model) (h : findById st id = some m)
    (hexp : m.expiration_time_seconds ≥ now) :
    retrieveUrl now st id = (m.tryIntoShortUrl now).map some := by
  have hd : decide (m.expiration_time_seconds ≥ now) = true := by simpa using hexp
  simp only [retrieveUrl, retrieveUrlFrom, h, Option.filter, hd, if_true]
  cases m.tryIntoShortUrl now <;> simp [Except.map]

/-- C7: for a proposed timestamp `t` judged against reference time `now`,
construction fails with `InPast` when `t` is strictly before `now`, fails with
`TooFarInFuture` reporting the computed maximum `now + MAX_TTL` when `t`
exceeds it, and otherwise succeeds and round-trips via the accessor. -/
theorem C7_expiration_time_validation (now t : Int) :
    (t < now → ExpirationTime.new now t = .error .InPast) ∧
    (t > now + MAX_TTL →
      ExpirationTime.new now t = .error (.TooFarInFuture (now + MAX_TTL))) ∧
    (now ≤ t → t ≤ now + MAX_TTL →
      ExpirationTime.new now t = .ok ⟨t⟩ ∧ ExpirationTime.into_inner ⟨t⟩ = t) := by
  refine ⟨fun h => ?_, fun h => ?_, fun h1 h2 => ⟨?_, rfl⟩⟩
  · simp [ExpirationTime.new, h]
  · have h1 : ¬t < now := by simp only [MAX_TTL] at h; omega
    simp [ExpirationTime.new, h, h1]
  · have h3 : ¬t < now := by omega
    have h4 : ¬t > now + MAX_TTL := by omega
    simp [ExpirationTime.new, h3, h4]

theorem C7_expiration_time_validation_witness :
    ExpirationTime.new 100 99 = .error .InPast ∧
    ExpirationTime.new 100 (100 + MAX_TTL + 1) = .error (.TooFarInFuture (100 + MAX_TTL)) ∧
    (ExpirationTime.new 100 200 = .ok ⟨200⟩ ∧ ExpirationTime.into_inner ⟨200⟩ = 200) :=
  ⟨(C7_expiration_time_validation 100 99).1 (by decide),
   (C7_expiration_time_validation 100 (100 + MAX_TTL + 1)).2.1 (by decide),
   (C7_expiration_time_validation 100 200).2.2 (by decide) (by decide)⟩

/-- C8: `ShortId.new` succeeds and round-trips exactly on strings of length
6..16 made of ASCII alphanumerics; a length violation yields `InvalidLength`
with the bounds 6 and 16; a character violation yields `InvalidCharacters`
listing exactly the offending characters in order. -/
theorem C8_short_id_validation (s : String) :
    (6 ≤ s.utf8ByteSize → s.utf8ByteSize ≤ 16 → (∀ c ∈ s.data, c.isAlphanum) →
      ShortId.new s = .ok ⟨s⟩ ∧ ShortId.into_inner ⟨s⟩ = s) ∧
    (¬(6 ≤ s.utf8ByteSize ∧ s.utf8ByteSize ≤ 16) →
      ShortId.new s = .error (.InvalidLength 6 16)) ∧
    (6 ≤ s.utf8ByteSize → s.utf8ByteSize ≤ 16 → (∃ c ∈ s.data, ¬c.isAlphanum) →
      ShortId.new s = .error (.InvalidCharacters
        (String.mk (s.data.filter fun c => !c.isAlphanum)))) := by
  refine ⟨fun h1 h2 hall => ⟨?_, rfl⟩, fun h => ?_, fun h1 h2 hbad => ?_⟩
  · have hfilter : s.data.filter (fun c => !c.isAlphanum) = [] := by
      rw [List.filter_eq_nil_iff]
      intro a ha
      simp [hall a ha]
    simp [ShortId.new, h1, h2, hfilter]
  · simp [ShortId.new, h]
  · obtain ⟨c, hc, hcn⟩ := hbad
    have hmem : c ∈ s.data.filter (fun c => !c.isAlphanum) :=
      List.mem_filter.mpr ⟨hc, by simp [hcn]⟩
    have hne : String.mk (s.data.filter fun c => !c.isAlphanum) ≠ "" := by
      intro hh
      have : s.data.filter (fun c => !c.isAlphanum) = [] := congrArg String.data hh
      rw [this] at hmem
      exact absurd hmem (List.not_mem_nil c)
    simp [ShortId.new, h1, h2, hne]

theorem C8_short_id_validation_witness :
    (ShortId.new "valid123" = .ok ⟨"valid123"⟩ ∧ ShortId.into_inner ⟨"valid123"⟩ = "valid123") ∧
    ShortId.new "short" = .error (.InvalidLength 6 16) ∧
    ShortId.new "invalid-id!" = .error (.InvalidCharacters "-!") := by
  refine ⟨(C8_short_id_validation "valid123").1 (by decide) (by decide) (by decide),
    (C8_short_id_validation "short").2.1 (by decide), ?_⟩
  have h := (C8_short_id_validation "invalid-id!").2.2 (by decide) (by decide)
    ⟨'-', by decide, by decide⟩
  rw [h]
  decide

/-- C5 (amended): retrieve(id) returns None when no row with the id exists, or
when a row exists whose expiration time is strictly before the current time;
a row whose expiration time is at or after the current time (including exactly
now) is returned; a transport fault propagates as an error distinct from the
None outcome. -/
theorem C5_retrieve_url_amended (now : Int) (st : List Model) (id : String) :
    (findById st id = none → retrieveUrl now st id = .ok none) ∧
    (∀ m, findById st id = some m → m.expiration_time_seconds < now →
      retrieveUrl now st id = .ok none) ∧
    (∀ m, findById st id = some m → m.expiration_time_seconds ≥ now →
      retrieveUrl now st id = (m.tryIntoShortUrl now).map some) ∧
    (∀ e : String,
      retrieveUrlFrom now (.error e) = .error "Failed to query for existing item" ∧
      retrieveUrlFrom now (.error e) ≠ .ok none) :=
  ⟨retrieveUrl_absent now st id,
   fun m h hx => retrieveUrl_expired now st id m h hx,
   fun m h hx => retrieveUrl_alive now st id m h hx,
   fun e => ⟨rfl, by simp [retrieveUrlFrom]⟩⟩

theorem C5_counterexample :
    retrieveUrl 5 [⟨"abc123", "https://a.bc/", 5⟩] "abc123"
      = .ok (some ⟨⟨"abc123"⟩, ⟨"https://a.bc/"⟩, ⟨5⟩⟩) ∧
    retrieveUrl 5 [⟨"abc123", "https://a.bc/", 5⟩] "abc123" ≠ .ok none := by
  constructor <;> decide

theorem C5_retrieve_url_amended_witness :
    retrieveUrl 10 ([] : List Model) "abc123" = .ok none ∧
    retrieveUrl 10 [⟨"abc123", "https://a.bc/", 9⟩] "abc123" = .ok none :=
  ⟨(C5_retrieve_url_amended 10 [] "abc123").1 (by decide),
   (C5_retrieve_url_amended 10 [⟨"abc123", "https://a.bc/", 9⟩] "abc123").2.1
     ⟨"abc123", "https://a.bc/", 9⟩ (by decide) (by decide)⟩

/-- C9: get fails with NotFound on an absent or logically-expired id; on a
present, unexpired id it returns the stored URL together with a remaining
lifetime of max(0, expiration - now) whole seconds, clamped to zero rather
than ever being negative. -/
theorem C9_get_url (st : List Model) (now1 now2 : Int) (id : String) :
    (findById st id = none → getUrlOn st now1 now2 id = .error .NotFound) ∧
    (∀ m, findById st id = some m → m.expiration_time_seconds < now1 →
      getUrlOn st now1 now2 id = .error .NotFound) ∧
    (∀ m u, findById st id = some m → m.expiration_time_seconds ≥ now1 →
      m.tryIntoShortUrl now1 = .ok u →
      getUrlOn st now1 now2 id
        = .ok ⟨u.url.as_str, (max 0 (u.expiration_time.into_inner - now2)).toNat⟩) := by
  refine ⟨fun h => ?_, fun m h hx => ?_, fun m u h hx hu => ?_⟩
  · simp [getUrlOn, retrieveUrl_absent now1 st id h, getUrl]
  · simp [getUrlOn, retrieveUrl_expired now1 st id m h hx, getUrl]
  · rw [getUrlOn, retrieveUrl_alive now1 st id m h hx, hu]
    simp only [Except.map, getUrl]
    congr 1
    simp only [Redirect.mk.injEq, and_true, true_and]
    omega

theorem C9_get_url_witness :
    getUrlOn ([] : List Model) 10 10 "abc123" = .error .NotFound ∧
    getUrlOn [⟨"abc123", "https://a.bc/", 86410⟩] 10 12 "abc123"
      = .ok ⟨"https://a.bc/", 86398⟩ := by
  refine ⟨(C9_get_url [] 10 10 "abc123").1 (by decide), ?_⟩
  have h := (C9_get_url [⟨"abc123", "https://a.bc/", 86410⟩] 10 12 "abc123").2.2
    ⟨"abc123", "https://a.bc/", 86410⟩ ⟨⟨"abc123"⟩, ⟨"https://a.bc/"⟩, ⟨86410⟩⟩
    (by decide) (by decide) (by decide)
  rw [h]
  decide

theorem saveUrl_fresh {now : Int} {st : List Model} {x : ShortUrl}
    (habsent : findById st x.short_id.into_inner = none) (hvalid : ValidAt now x) :
    saveUrl now st x = (.ok x, st ++ [x.row]) := by
  have hrec := tryIntoShortUrl_row hvalid
  simp only [ShortUrl.row] at hrec
  simp only [saveUrl, habsent, hrec, ShortUrl.row]

theorem saveUrl_conflict {now : Int} {st : List Model} {x : ShortUrl} {m : Model}
    {ex : ShortUrl} (hfind : findById st x.short_id.into_inner = some m)
    (halive : m.expiration_time_seconds ≥ now) (hrec : m.tryIntoShortUrl now = .ok ex) :
    saveUrl now st x = (.error (.ItemAlreadyExists ex), st) := by
  simp only [saveUrl, hfind, halive, if_true, hrec]

theorem saveUrl_replaces {now : Int} {st : List Model} {x : ShortUrl} {m : Model}
    (hfind : findById st x.short_id.into_inner = some m)
    (hexp : m.expiration_time_seconds < now) (hvalid : ValidAt now x) :
    saveUrl now st x = (.ok x, st.filter (fun r => !(r.id == m.id)) ++ [x.row]) := by
  have hrec := tryIntoShortUrl_row hvalid
  simp only [ShortUrl.row] at hrec
  have hnot : ¬m.expiration_time_seconds ≥ now := by omega
  simp only [saveUrl, hfind, hnot, if_false, hrec, ShortUrl.row]

/-- C1: save follows the transactional protocol: with the id absent the
candidate is inserted and returned; with an unexpired row present
(expiration ≥ now) save returns ItemAlreadyExists carrying the reconstructed
existing row and leaves the state unchanged — in particular a second save of
the same unexpired candidate conflicts with the candidate itself; with an
expired row present the row is deleted and the candidate freshly inserted and
returned. -/
theorem C1_save_url_protocol (now : Int) (st : List Model) (x : ShortUrl)
    (hvalid : ValidAt now x) :
    (findById st x.short_id.into_inner = none →
      saveUrl now st x = (.ok x, st ++ [x.row])) ∧
    (∀ m ex, findById st x.short_id.into_inner = some m →
      m.expiration_time_seconds ≥ now → m.tryIntoShortUrl now = .ok ex →
      saveUrl now st x = (.error (.ItemAlreadyExists ex), st)) ∧
    (∀ m, findById st x.short_id.into_inner = some m →
      m.expiration_time_seconds < now →
      saveUrl now st x = (.ok x, st.filter (fun r => !(r.id == m.id)) ++ [x.row])) ∧
    (findById st x.short_id.into_inner = none →
      saveUrl now (st ++ [x.row]) x = (.error (.ItemAlreadyExists x), st ++ [x.row])) := by
  refine ⟨fun h => saveUrl_fresh h hvalid,
    fun m ex hf ha hr => saveUrl_conflict hf ha hr,
    fun m hf he => saveUrl_replaces hf he hvalid,
    fun h => ?_⟩
  have hfind : findById (st ++ [x.row]) x.short_id.into_inner = some x.row :=
    findById_append x.row h rfl
  exact saveUrl_conflict hfind (validAt_alive hvalid) (tryIntoShortUrl_row hvalid)

theorem C1_save_url_protocol_witness :
    saveUrl 50 [] ⟨⟨"abc123"⟩, ⟨"https://a.bc/"⟩, ⟨100⟩⟩
      = (.ok ⟨⟨"abc123"⟩, ⟨"https://a.bc/"⟩, ⟨100⟩⟩,
         [] ++ [ShortUrl.row ⟨⟨"abc123"⟩, ⟨"https://a.bc/"⟩, ⟨100⟩⟩]) ∧
    saveUrl 50 ([] ++ [ShortUrl.row ⟨⟨"abc123"⟩, ⟨"https://a.bc/"⟩, ⟨100⟩⟩])
        ⟨⟨"abc123"⟩, ⟨"https://a.bc/"⟩, ⟨100⟩⟩
      = (.error (.ItemAlreadyExists ⟨⟨"abc123"⟩, ⟨"https://a.bc/"⟩, ⟨100⟩⟩),
         [] ++ [ShortUrl.row ⟨⟨"abc123"⟩, ⟨"https://a.bc/"⟩, ⟨100⟩⟩]) :=
  ⟨(C1_save_url_protocol 50 [] ⟨⟨"abc123"⟩, ⟨"https://a.bc/"⟩, ⟨100⟩⟩ (by decide)).1 (by decide),
   (C1_save_url_protocol 50 [] ⟨⟨"abc123"⟩, ⟨"https://a.bc/"⟩, ⟨100⟩⟩ (by decide)).2.2.2 (by decide)⟩

/-- C10: retrieve_url and save_url decide liveness with the identical
predicate expiration ≥ now: an alive row — including one expiring exactly at
now — is both returned by retrieve and defended by save as an
ItemAlreadyExists conflict with the state unchanged, while an expired row is
both hidden from retrieve and overwritten by save. -/
theorem C10_shared_liveness (now : Int) (st : List Model) (id : String)
    (m : Model) (hfind : findById st id = some m) :
    (m.expiration_time_seconds ≥ now →
      retrieveUrl now st id = (m.tryIntoShortUrl now).map some ∧
      ∀ x : ShortUrl, x.short_id.into_inner = id →
        (saveUrl now st x).2 = st ∧
        ∀ ex, m.tryIntoShortUrl now = .ok ex →
          saveUrl now st x = (.error (.ItemAlreadyExists ex), st)) ∧
    (m.expiration_time_seconds < now →
      retrieveUrl now st id = .ok none ∧
      ∀ x : ShortUrl, x.short_id.into_inner = id →
        (saveUrl now st x).2 = st.filter (fun r => !(r.id == m.id)) ++ [x.row]) := by
  constructor
  · intro halive
    refine ⟨retrieveUrl_alive now st id m hfind halive, fun x hx => ?_⟩
    have hf : findById st x.short_id.into_inner = some m := by rw [hx]; exact hfind
    constructor
    · rcases hrec : m.tryIntoShortUrl now with e | ex
      · simp only [saveUrl, hf, halive, if_true, hrec]
      · rw [saveUrl_conflict hf halive hrec]
    · intro ex hrec
      exact saveUrl_conflict hf halive hrec
  · intro hexp
    refine ⟨retrieveUrl_expired now st id m hfind hexp, fun x hx => ?_⟩
    have hf : findById st x.short_id.into_inner = some m := by rw [hx]; exact hfind
    have hnot : ¬m.expiration_time_seconds ≥ now := by omega
    rcases hrec : (⟨x.short_id.into_inner, x.url.as_str,
        x.expiration_time.into_inner⟩ : Model).tryIntoShortUrl now with e | v
    · simp only [saveUrl, hf, hnot, if_false, hrec, ShortUrl.row]
    · simp only [saveUrl, hf, hnot, if_false, hrec, ShortUrl.row]

theorem C10_shared_liveness_witness :
    retrieveUrl 7 [⟨"qrs789", "https://q.rs/", 7⟩] "qrs789"
      = .ok (some ⟨⟨"qrs789"⟩, ⟨"https://q.rs/"⟩, ⟨7⟩⟩) ∧
    saveUrl 7 [⟨"qrs789", "https://q.rs/", 7⟩] ⟨⟨"qrs789"⟩, ⟨"https://x.yz/"⟩, ⟨9⟩⟩
      = (.error (.ItemAlreadyExists ⟨⟨"qrs789"⟩, ⟨"https://q.rs/"⟩, ⟨7⟩⟩),
         [⟨"qrs789", "https://q.rs/", 7⟩]) := by
  have h := (C10_shared_liveness 7 [⟨"qrs789", "https://q.rs/", 7⟩] "qrs789"
    ⟨"qrs789", "https://q.rs/", 7⟩ (by decide)).1 (by decide)
  refine ⟨?_, (h.2 ⟨⟨"qrs789"⟩, ⟨"https://x.yz/"⟩, ⟨9⟩⟩ rfl).2
    ⟨⟨"qrs789"⟩, ⟨"https://q.rs/"⟩, ⟨7⟩⟩ (by decide)⟩
  rw [h.1]
  decide

theorem putUrl_creates {now : Int} {st : List Model} {id url ts : String}
    {T : Int} {sid : ShortId} {u : Url} {e : ExpirationTime} {out : ShortenedUrl}
    (hts : parseRfc3339 ts = .ok T) (hsid : ShortId.new id = .ok sid)
    (hurl : Url.parse url = .ok u) (hexp : ExpirationTime.new now T = .ok e)
    (habsent : findById st sid.into_inner = none)
    (hout : ShortUrl.tryIntoShortenedUrl ⟨sid, u, e⟩ = .ok out) :
    putUrl now st id url ts
      = (.ok (out, .NewlyCreated), st ++ [ShortUrl.row ⟨sid, u, e⟩]) := by
  have hsave := @saveUrl_fresh now st ⟨sid, u, e⟩ habsent (validAt_of_new hsid hurl hexp)
  simp only [putUrl, hts, hsid, hurl, hexp, hsave, hout]

theorem putUrl_replays {now : Int} {st : List Model} {id url ts : String}
    {T : Int} {sid : ShortId} {u : Url} {e : ExpirationTime} {out : ShortenedUrl}
    (hts : parseRfc3339 ts = .ok T) (hsid : ShortId.new id = .ok sid)
    (hurl : Url.parse url = .ok u) (hexp : ExpirationTime.new now T = .ok e)
    (hfind : findById st sid.into_inner = some (ShortUrl.row ⟨sid, u, e⟩))
    (hout : ShortUrl.tryIntoShortenedUrl ⟨sid, u, e⟩ = .ok out) :
    putUrl now st id url ts = (.ok (out, .AlreadyExists), st) := by
  have hvalid := validAt_of_new hsid hurl hexp
  have hsave := @saveUrl_conflict now st ⟨sid, u, e⟩ _ _ hfind (validAt_alive hvalid)
    (tryIntoShortUrl_row hvalid)
  simp [putUrl, hts, hsid, hurl, hexp, hsave, hout]

/-- C2: once put's inputs validate and save reports ItemAlreadyExists: a
field-for-field identical existing entry is an idempotent replay returning the
existing entry with status AlreadyExists, while an existing entry differing in
URL or expiration fails with ShortIdAlreadyTaken; hence identical
(id, url, expiration) submitted twice yields NewlyCreated then AlreadyExists
with the same shortened-URL content. -/
theorem C2_put_conflict_semantics (now : Int) (st : List Model)
    (id url ts : String) (T : Int) (sid : ShortId) (u : Url)
    (e : ExpirationTime) (out : ShortenedUrl)
    (hts : parseRfc3339 ts = .ok T) (hsid : ShortId.new id = .ok sid)
    (hurl : Url.parse url = .ok u) (hexp : ExpirationTime.new now T = .ok e) :
    (∀ existing st2,
      saveUrl now st ⟨sid, u, e⟩ = (.error (.ItemAlreadyExists existing), st2) →
      (existing = (⟨sid, u, e⟩ : ShortUrl) →
        existing.tryIntoShortenedUrl = .ok out →
        putUrl now st id url ts = (.ok (out, .AlreadyExists), st2)) ∧
      (existing.url ≠ u ∨ existing.expiration_time ≠ e →
        putUrl now st id url ts = (.error .ShortIdAlreadyTaken, st2))) ∧
    (findById st sid.into_inner = none →
      ShortUrl.tryIntoShortenedUrl ⟨sid, u, e⟩ = .ok out →
      putUrl now st id url ts
        = (.ok (out, .NewlyCreated), st ++ [ShortUrl.row ⟨sid, u, e⟩]) ∧
      putUrl now (st ++ [ShortUrl.row ⟨sid, u, e⟩]) id url ts
        = (.ok (out, .AlreadyExists), st ++ [ShortUrl.row ⟨sid, u, e⟩])) := by
  constructor
  · intro existing st2 hsave
    constructor
    · intro heq hout
      subst heq
      simp [putUrl, hts, hsid, hurl, hexp, hsave, hout]
    · intro hdiff
      have hne : ¬((⟨sid, u, e⟩ : ShortUrl) = existing) := by
        intro hh
        rcases hdiff with hd | hd <;> exact hd (by rw [← hh])
      simp only [putUrl, hts, hsid, hurl, hexp, hsave, if_neg hne]
  · intro habsent hout
    refine ⟨putUrl_creates hts hsid hurl hexp habsent hout, ?_⟩
    have hfind : findById (st ++ [ShortUrl.row ⟨sid, u, e⟩]) sid.into_inner
        = some (ShortUrl.row ⟨sid, u, e⟩) :=
      findById_append _ habsent rfl
    exact putUrl_replays hts hsid hurl hexp hfind hout

theorem C2_put_conflict_semantics_witness :
    putUrl 50 [] "abc123" "https://a.bc/" "1970-01-02T00:00:00Z"
      = (.ok (⟨"abc123", "https://a.bc/", "1970-01-02T00:00:00Z"⟩, .NewlyCreated),
         [] ++ [ShortUrl.row ⟨⟨"abc123"⟩, ⟨"https://a.bc/"⟩, ⟨86400⟩⟩]) ∧
    putUrl 50 ([] ++ [ShortUrl.row ⟨⟨"abc123"⟩, ⟨"https://a.bc/"⟩, ⟨86400⟩⟩])
        "abc123" "https://a.bc/" "1970-01-02T00:00:00Z"
      = (.ok (⟨"abc123", "https://a.bc/", "1970-01-02T00:00:00Z"⟩, .AlreadyExists),
         [] ++ [ShortUrl.row ⟨⟨"abc123"⟩, ⟨"https://a.bc/"⟩, ⟨86400⟩⟩]) :=
  (C2_put_conflict_semantics 50 [] "abc123" "https://a.bc/" "1970-01-02T00:00:00Z"
    86400 ⟨"abc123"⟩ ⟨"https://a.bc/"⟩ ⟨86400⟩
    ⟨"abc123", "https://a.bc/", "1970-01-02T00:00:00Z"⟩
    (by decide) (by decide) (by decide) (by decide)).2 (by decide) (by decide)

theorem C6_counterexample :
    putUrl 1760227200 [] "abc123xy" "https://example.com" "2025-10-13T00:00:00Z"
      = (.ok (⟨"abc123xy", "https://example.com/", "2025-10-13T00:00:00Z"⟩, .NewlyCreated),
         [⟨"abc123xy", "https://example.com/", 1760313600⟩]) ∧
    (putUrl 1760227200 [] "abc123xy" "https://example.com" "2025-10-13T00:00:00Z").1
      ≠ .ok (⟨"abc123xy", "https://example.com", "2025-10-13T00:00:00Z"⟩, .NewlyCreated) := by
  constructor <;> decide

/-- C6 (amended): starting from a repository state with no row for "abc123xy",
put of that id, the URL "https://example.com" and a timestamp one day ahead of
the current time succeeds with status NewlyCreated, echoing the id and the
supplied timestamp, and carrying the parsed URL's normalized serialization
"https://example.com/" (the url crate appends the root path to a pathless
URL) as long_url. -/
theorem C6_put_end_to_end :
    putUrl 1760227200 [] "abc123xy" "https://example.com" "2025-10-13T00:00:00Z"
      = (.ok (⟨"abc123xy", "https://example.com/", "2025-10-13T00:00:00Z"⟩, .NewlyCreated),
         [⟨"abc123xy", "https://example.com/", 1760313600⟩]) := by
  decide

theorem postLoop_succ (env : PostEnv) (now : Int) (url ts : String)
    (fuel attempts : Nat) (salt : List UInt8) (st : List Model) :
    postLoop env now url ts (fuel + 1) attempts salt st =
      match putUrl now st (deriveAttemptId env.hash salt url ts) url ts with
      | (.ok (shortened_url, _), st2) => (.ok shortened_url, st2, attempts + 1)
      | (.error (.InvalidUrl inner), st2) => (.error (.InvalidUrl inner), st2, attempts + 1)
      | (.error (.TimestampParse inner), st2) =>
        (.error (.TimestampParse inner), st2, attempts + 1)
      | (.error (.InvalidExpirationTime inner), st2) =>
        (.error (.InvalidExpirationTime inner), st2, attempts + 1)
      | (.error (.Internal err), st2) =>
        (.error (.Internal ("Encountered internal error in delegated PUT call: " ++ err)),
          st2, attempts + 1)
      | (.error (.InvalidShortId _), st2) =>
        postLoop env now url ts fuel (attempts + 1) (env.randomSalt attempts) st2
      | (.error .ShortIdAlreadyTaken, st2) =>
        postLoop env now url ts fuel (attempts + 1) (env.randomSalt attempts) st2 := rfl

theorem postLoop_attempts_le (env : PostEnv) (now : Int) (url ts : String) :
    ∀ fuel attempts salt st,
      (postLoop env now url ts fuel attempts salt st).2.2 ≤ attempts + fuel := by
  intro fuel
  induction fuel with
  | zero => intro attempts salt st; simp [postLoop]
  | succ n ih =>
    intro attempts salt st
    rw [postLoop_succ]
    rcases hput : putUrl now st (deriveAttemptId env.hash salt url ts) url ts with ⟨res, st2⟩
    cases res with
    | ok v =>
      rcases v with ⟨s0, c0⟩
      simp
    | error err =>
      cases err with
      | InvalidUrl i => simp
      | TimestampParse i => simp
      | InvalidExpirationTime i => simp
      | Internal i => simp
      | InvalidShortId i =>
        simp only []
        have := ih (attempts + 1) (env.randomSalt attempts) st2
        omega
      | ShortIdAlreadyTaken =>
        simp only []
        have := ih (attempts + 1) (env.randomSalt attempts) st2
        omega

/-- C3: on its first attempt post derives the candidate id as
`deriveAttemptId hash zeroSalt url ts` — the keyed hash with the all-zero
32-byte salt over the URL bytes followed by the expiration-timestamp bytes,
first 5 digest bytes placed in a 16-byte buffer read as a little-endian
128-bit integer and base62-encoded — a pure deterministic function of the two
input strings; hence two posts with identical (url, expiration) inputs and the
same hash function (random retry salts may differ) attempt the same candidate
id and produce the same shortened_url_id, both succeeding, the second as a
dedupe hit. -/
theorem C3_post_determinism (env1 env2 : PostEnv) (hh : env1.hash = env2.hash)
    (now : Int) (url ts : String) (T : Int) (sid : ShortId) (u : Url)
    (e : ExpirationTime) (out : ShortenedUrl)
    (hts : parseRfc3339 ts = .ok T)
    (hsid : ShortId.new (deriveAttemptId env1.hash zeroSalt url ts) = .ok sid)
    (hurl : Url.parse url = .ok u) (hexp : ExpirationTime.new now T = .ok e)
    (hout : ShortUrl.tryIntoShortenedUrl ⟨sid, u, e⟩ = .ok out) :
    postUrl env1 now url ts [] = (.ok out, [ShortUrl.row ⟨sid, u, e⟩], 1) ∧
    postUrl env2 now url ts [ShortUrl.row ⟨sid, u, e⟩]
      = (.ok out, [ShortUrl.row ⟨sid, u, e⟩], 1) ∧
    out.shortened_url_id = deriveAttemptId env1.hash zeroSalt url ts := by
  have habsent : findById [] sid.into_inner = none := rfl
  have hput1 := putUrl_creates hts hsid hurl hexp habsent hout
  have hfind : findById [ShortUrl.row ⟨sid, u, e⟩] sid.into_inner
      = some (ShortUrl.row ⟨sid, u, e⟩) := by
    simpa using @findById_append [] sid.into_inner (ShortUrl.row ⟨sid, u, e⟩) rfl rfl
  have hsid2 : ShortId.new (deriveAttemptId env2.hash zeroSalt url ts) = .ok sid := by
    rw [← hh]; exact hsid
  have hput2 := putUrl_replays hts hsid2 hurl hexp hfind hout
  refine ⟨?_, ?_, ?_⟩
  · show postLoop env1 now url ts (2 + 1) 0 zeroSalt [] = _
    rw [postLoop_succ, hput1]
    simp
  · show postLoop env2 now url ts (2 + 1) 0 zeroSalt [ShortUrl.row ⟨sid, u, e⟩] = _
    rw [postLoop_succ, hput2]
  · obtain rfl := shortId_new_eq_ok hsid
    unfold ShortUrl.tryIntoShortenedUrl at hout
    split at hout
    · exact (congrArg ShortenedUrl.shortened_url_id (Except.ok.inj hout)).symm
    · exact absurd hout (by simp)

theorem C3_post_determinism_witness :
    postUrl ⟨fun _ _ => [1, 2, 3, 4, 5], fun _ => []⟩ 0
        "https://a.bc/" "1970-01-02T00:00:00Z" []
      = (.ok ⟨"NVsdKj", "https://a.bc/", "1970-01-02T00:00:00Z"⟩,
         [ShortUrl.row ⟨⟨"NVsdKj"⟩, ⟨"https://a.bc/"⟩, ⟨86400⟩⟩], 1) ∧
    postUrl ⟨fun _ _ => [1, 2, 3, 4, 5], fun _ => []⟩ 0
        "https://a.bc/" "1970-01-02T00:00:00Z"
        [ShortUrl.row ⟨⟨"NVsdKj"⟩, ⟨"https://a.bc/"⟩, ⟨86400⟩⟩]
      = (.ok ⟨"NVsdKj", "https://a.bc/", "1970-01-02T00:00:00Z"⟩,
         [ShortUrl.row ⟨⟨"NVsdKj"⟩, ⟨"https://a.bc/"⟩, ⟨86400⟩⟩], 1) ∧
    ShortenedUrl.shortened_url_id ⟨"NVsdKj", "https://a.bc/", "1970-01-02T00:00:00Z"⟩
      = deriveAttemptId (fun _ _ => [1, 2, 3, 4, 5]) zeroSalt
          "https://a.bc/" "1970-01-02T00:00:00Z" :=
  C3_post_determinism ⟨fun _ _ => [1, 2, 3, 4, 5], fun _ => []⟩
    ⟨fun _ _ => [1, 2, 3, 4, 5], fun _ => []⟩ rfl 0
    "https://a.bc/" "1970-01-02T00:00:00Z" 86400
    ⟨"NVsdKj"⟩ ⟨"https://a.bc/"⟩ ⟨86400⟩
    ⟨"NVsdKj", "https://a.bc/", "1970-01-02T00:00:00Z"⟩
    (by decide) (by decide) (by decide) (by decide) (by decide)

/-- C4: post makes at most PUT_ATTEMPTS = 3 put attempts, entering its loop
with the zero salt; at every loop position (any remaining fuel, any count k of
attempts already made, any current salt), an InvalidUrl, TimestampParse,
InvalidExpirationTime or Internal error from that attempt's put halts the
loop immediately — translated to the corresponding post error, with exactly
k + 1 total attempts, never retrying — while an InvalidShortId or
ShortIdAlreadyTaken result makes the loop continue with the freshly drawn
salt randomSalt k; when the three attempts, salted with zeroSalt then
randomSalt 0 then randomSalt 1, all fail with retryable errors, post fails
with the internal retries-exhausted error after exactly 3 attempts. -/
theorem C4_post_retry_policy (env : PostEnv) (now : Int) (url ts : String)
    (st : List Model) :
    (postUrl env now url ts st).2.2 ≤ PUT_ATTEMPTS ∧
    postUrl env now url ts st = postLoop env now url ts PUT_ATTEMPTS 0 zeroSalt st ∧
    (∀ fuel k salt stA err st2,
      putUrl now stA (deriveAttemptId env.hash salt url ts) url ts
        = (.error err, st2) →
      (∀ inner, err = .InvalidUrl inner →
        postLoop env now url ts (fuel + 1) k salt stA
          = (.error (.InvalidUrl inner), st2, k + 1)) ∧
      (∀ inner, err = .TimestampParse inner →
        postLoop env now url ts (fuel + 1) k salt stA
          = (.error (.TimestampParse inner), st2, k + 1)) ∧
      (∀ inner, err = .InvalidExpirationTime inner →
        postLoop env now url ts (fuel + 1) k salt stA
          = (.error (.InvalidExpirationTime inner), st2, k + 1)) ∧
      (∀ inner, err = .Internal inner →
        postLoop env now url ts (fuel + 1) k salt stA
          = (.error (.Internal
              ("Encountered internal error in delegated PUT call: " ++ inner)),
             st2, k + 1))) ∧
    (∀ fuel k salt stA err st2,
      putUrl now stA (deriveAttemptId env.hash salt url ts) url ts
        = (.error err, st2) →
      isRetryable err = true →
      postLoop env now url ts (fuel + 1) k salt stA
        = postLoop env now url ts fuel (k + 1) (env.randomSalt k) st2) ∧
    (∀ e0 e1 e2 st1 st2 st3,
      putUrl now st (deriveAttemptId env.hash zeroSalt url ts) url ts
        = (.error e0, st1) →
      isRetryable e0 = true →
      putUrl now st1 (deriveAttemptId env.hash (env.randomSalt 0) url ts) url ts
        = (.error e1, st2) →
      isRetryable e1 = true →
      putUrl now st2 (deriveAttemptId env.hash (env.randomSalt 1) url ts) url ts
        = (.error e2, st3) →
      isRetryable e2 = true →
      postUrl env now url ts st
        = (.error (.Internal "Exhausted retry attempts"), st3, 3)) := by
  have step : ∀ (fuel k : Nat) (salt : List UInt8) (stA stB : List Model) (e : PutUrlError),
      putUrl now stA (deriveAttemptId env.hash salt url ts) url ts = (.error e, stB) →
      isRetryable e = true →
      postLoop env now url ts (fuel + 1) k salt stA
        = postLoop env now url ts fuel (k + 1) (env.randomSalt k) stB := by
    intro fuel k salt stA stB e hp hr
    rw [postLoop_succ, hp]
    cases e with
    | InvalidShortId i => rfl
    | ShortIdAlreadyTaken => rfl
    | InvalidUrl i => simp [isRetryable] at hr
    | TimestampParse i => simp [isRetryable] at hr
    | InvalidExpirationTime i => simp [isRetryable] at hr
    | Internal i => simp [isRetryable] at hr
  refine ⟨?_, rfl, ?_, fun fuel k salt stA err st2 => step fuel k salt stA st2 err, ?_⟩
  · have := postLoop_attempts_le env now url ts PUT_ATTEMPTS 0 zeroSalt st
    simpa [postUrl] using this
  · intro fuel k salt stA err st2 hput
    refine ⟨fun inner heq => ?_, fun inner heq => ?_, fun inner heq => ?_,
      fun inner heq => ?_⟩ <;>
    · subst heq
      rw [postLoop_succ, hput]
  · intro e0 e1 e2 st1 st2 st3 h0 hr0 h1 hr1 h2 hr2
    show postLoop env now url ts (2 + 1) 0 zeroSalt st = _
    rw [step 2 0 zeroSalt st st1 e0 h0 hr0]
    show postLoop env now url ts (1 + 1) 1 (env.randomSalt 0) st1 = _
    rw [step 1 1 (env.randomSalt 0) st1 st2 e1 h1 hr1]
    show postLoop env now url ts (0 + 1) 2 (env.randomSalt 1) st2 = _
    rw [step 0 2 (env.randomSalt 1) st2 st3 e2 h2 hr2]
    rfl

theorem C4_post_retry_policy_witness :
    postUrl ⟨fun _ _ => [], fun _ => []⟩ 0 "https://a.bc/" "1970-01-02T00:00:00Z" []
      = (.error (.Internal "Exhausted retry attempts"), [], 3) ∧
    postUrl ⟨fun salt _ => salt.take 5, fun _ => [1, 2, 3, 4, 5]⟩ 0
        "not a url" "1970-01-02T00:00:00Z" []
      = (.error (.InvalidUrl "relative URL without a base"), [], 2) := by
  constructor
  · exact (C4_post_retry_policy ⟨fun _ _ => [], fun _ => []⟩ 0
      "https://a.bc/" "1970-01-02T00:00:00Z" []).2.2.2.2
      (.InvalidShortId (.InvalidLength 6 16)) (.InvalidShortId (.InvalidLength 6 16))
      (.InvalidShortId (.InvalidLength 6 16)) [] [] []
      (by decide) (by decide) (by decide) (by decide) (by decide) (by decide)
  · have h := C4_post_retry_policy ⟨fun salt _ => salt.take 5, fun _ => [1, 2, 3, 4, 5]⟩ 0
      "not a url" "1970-01-02T00:00:00Z" []
    have hstep := h.2.2.2.1 2 0 zeroSalt []
      (.InvalidShortId (.InvalidLength 6 16)) [] (by decide) (by decide)
    have hterm := (h.2.2.1 1 1
      ((⟨fun salt _ => salt.take 5, fun _ => [1, 2, 3, 4, 5]⟩ : PostEnv).randomSalt 0) []
      (.InvalidUrl "relative URL without a base") [] (by decide)).1
      "relative URL without a base" rfl
    exact (h.2.1.trans hstep).trans hterm
